import Mathlib

/-!
Shallow embedding of the motor-controller visualisation code
(`src/python/dataplotter.py` and `src/python/motorAnimation.py`).

The Python code is dynamically typed, so the numeric value type is kept
polymorphic (`α`); theorems instantiate it at `ℚ` or `ℝ`.  Mutable object
state becomes explicit state passing; a Python method that can raise an
exception returns the mutated state paired with a `Bool` success flag
(`false` means the method aborted with an exception at that point, leaving
the mutations it had already performed in place, exactly as in Python).
Matplotlib itself is out of scope; the embedding records the data handed to
matplotlib primitives (`Line2D` x/y buffers, patch geometry, title text),
which is what the specification's claims are about.
-/

/-- A matplotlib `Line2D` primitive as the code uses it: its x/y data
buffers, colour, line style and optional legend label.  The `id` field
models Python object identity: it is assigned when the primitive is created
and is never changed by the in-place mutations `set_xdata`/`set_ydata`. -/
structure Line2D (α : Type) where
  id : Nat
  xdata : List α
  ydata : List α
  color : String
  ls : String
  label : Option String
deriving Repr, DecidableEq

/-- `self.colors` of `myPlot.__init__` (dataplotter.py line 150). -/
def myPlotColors : List String := ["b", "g", "r", "c", "m", "y", "k"]

/-- `self.line_styles` of `myPlot.__init__` (dataplotter.py line 155). -/
def myPlotLineStyles : List String := ["-", "-", "--", "-.", ":"]

/-- The empty string, the default for the axis-chrome keyword arguments. -/
def blank : String := ""

/-- State of one `myPlot` panel (dataplotter.py lines 131-198). -/
structure myPlot (α : Type) where
  legend : Option (List String)
  colors : List String
  line_styles : List String
  line : List (Line2D α)
  xlabel : String
  ylabel : String
  title : String
  init : Bool
deriving Repr, DecidableEq

/-- `myPlot.__init__`: stores the legend and axis chrome, starts with an
empty line list and `init = True`.  No validation is performed. -/
def myPlot.construct {α : Type} (xlabel ylabel title : String)
    (legend : Option (List String)) : myPlot α :=
  { legend := legend
    colors := myPlotColors
    line_styles := myPlotLineStyles
    line := []
    xlabel := xlabel
    ylabel := ylabel
    title := title
    init := true }

/-- The init-branch loop of `myPlot.update` (dataplotter.py lines 178-185):
for `i` in `range(len(data))` build a `Line2D` from `time`/`data[i]`, with
colour `colors[i mod 7]`, style `line_styles[i mod 5]` and label
`legend[i]` when a legend is present.  When the legend is present but too
short, indexing `self.legend[i]` raises `IndexError` at `i = len(legend)`:
the second component becomes `false` and only the lines built for earlier
indices are returned (they were already appended to `self.line`). -/
def buildLines {α : Type} (legend : Option (List String))
    (colors styles : List String) (time : List α) :
    Nat → List (List α) → List (Line2D α) × Bool
  | _, [] => ([], true)
  | i, d :: rest =>
    match legend with
    | none =>
      let r := buildLines legend colors styles time (i + 1) rest
      ({ id := i, xdata := time, ydata := d,
         color := colors.getD (i % colors.length) "",
         ls := styles.getD (i % styles.length) "",
         label := none } :: r.1, r.2)
    | some lg =>
      if h : i < lg.length then
        let r := buildLines legend colors styles time (i + 1) rest
        ({ id := i, xdata := time, ydata := d,
           color := colors.getD (i % colors.length) "",
           ls := styles.getD (i % styles.length) "",
           label := some (lg.get ⟨i, h⟩) } :: r.1, r.2)
      else ([], false)

/-- The else-branch loop of `myPlot.update` (dataplotter.py lines 192-194):
for `i` in `range(len(self.line))` set line `i`'s x-data to `time` and its
y-data to `data[i]`.  If `data` is shorter than the line list, indexing
`data[i]` raises `IndexError`; the failing line has already had its x-data
set (the `set_xdata` statement precedes the `set_ydata` statement), and
later lines are untouched. -/
def setLines {α : Type} (time : List α) :
    List (Line2D α) → List (List α) → List (Line2D α) × Bool
  | [], _ => ([], true)
  | l :: rest, [] => ({ l with xdata := time } :: rest, false)
  | l :: rest, d :: ds =>
    let r := setLines time rest ds
    ({ l with xdata := time, ydata := d } :: r.1, r.2)

/-- `myPlot.update` (dataplotter.py lines 171-198).  On the first call
(`init = True`) it builds one `Line2D` per entry of `data` and sets
`init = False`; if the legend indexing raises, the lines already appended
stay and `init` remains `True` (the `self.init = False` statement is only
reached after the loop).  On later calls it mutates the existing lines'
buffers in place. -/
def myPlot.update {α : Type} (p : myPlot α) (time : List α)
    (data : List (List α)) : myPlot α × Bool :=
  if p.init then
    let r := buildLines p.legend p.colors p.line_styles time 0 data
    if r.2 then ({ p with line := p.line ++ r.1, init := false }, true)
    else ({ p with line := p.line ++ r.1 }, false)
  else
    let r := setLines time p.line data
    ({ p with line := r.1 }, r.2)

/-- Iterate `myPlot.update` over a list of `(time, data)` calls, stopping
at the first call that raises (as the exception would abort the caller). -/
def myPlot.runUpdates {α : Type} (p : myPlot α) :
    List (List α × List (List α)) → myPlot α × Bool
  | [] => (p, true)
  | c :: rest =>
    let r := p.update c.1 c.2
    if r.2 then r.1.runUpdates rest else (r.1, false)

/-- One entry of `plot_config` (dataplotter.py lines 14-58): the dict keys
`signals`, `ylabel`, `xlabel`, `title`, `legend`, `conversion`, with the
same defaults `dict.get` supplies (`conversion` defaults to `1.0` at the
use site, line 116). -/
structure PlotConfigEntry (α : Type) where
  signals : List String
  ylabel : String := ""
  xlabel : String := ""
  title : String := ""
  legend : Option (List String) := none
  conversion : Option α := none
deriving Repr, DecidableEq

/-- Python-dict lookup on an insertion-ordered association list. -/
def dictGet? {β : Type} : List (String × β) → String → Option β
  | [], _ => none
  | (k', v') :: rest, k => if k' = k then some v' else dictGet? rest k

/-- Python-dict assignment: overwrite in place when the key is present
(keeping its insertion position), else append at the end. -/
def dictSet {β : Type} : List (String × β) → String → β → List (String × β)
  | [], k, v => [(k, v)]
  | (k', v') :: rest, k, v =>
    if k' = k then (k', v) :: rest else (k', v') :: dictSet rest k v

/-- `self.data_histories[signal] = []` for every signal of one config entry
(dataplotter.py lines 75-77, inner loop). -/
def initSignals {α : Type} (d : List (String × List α)) :
    List String → List (String × List α)
  | [] => d
  | s :: rest => initSignals (dictSet d s []) rest

/-- The full history-initialisation loop of `MotorDataPlotter.__init__`
(dataplotter.py lines 75-77). -/
def initHistories {α : Type} (d : List (String × List α)) :
    List (PlotConfigEntry α) → List (String × List α)
  | [] => d
  | p :: rest => initHistories (initSignals d p.signals) rest

/-- The ordered list of all signal names declared by the configuration. -/
def declaredSignals {α : Type} : List (PlotConfigEntry α) → List String
  | [] => []
  | p :: rest => p.signals ++ declaredSignals rest

/-- State of a `MotorDataPlotter` (dataplotter.py lines 8-128). -/
structure MotorDataPlotter (α : Type) where
  plot_config : List (PlotConfigEntry α)
  time_history : List α
  data_histories : List (String × List α)
  handle : List (myPlot α)
deriving Repr, DecidableEq

/-- `MotorDataPlotter.__init__` with an explicit `plot_config`
(dataplotter.py lines 57-90).  It performs no validation of the
configuration: histories are initialised for every declared signal and one
`myPlot` is created per config entry, with the legend stored verbatim. -/
def MotorDataPlotter.construct {α : Type}
    (cfg : List (PlotConfigEntry α)) : MotorDataPlotter α :=
  { plot_config := cfg
    time_history := []
    data_histories := initHistories [] cfg
    handle := cfg.map (fun p => myPlot.construct p.xlabel p.ylabel p.title p.legend) }

/-- The kwargs loop of `MotorDataPlotter.update` (dataplotter.py lines
108-110): append each named value to its history when the name is a known
signal, silently skipping unknown names. -/
def appendValues {α : Type} (d : List (String × List α)) :
    List (String × α) → List (String × List α)
  | [] => d
  | (s, v) :: rest =>
    appendValues
      (if (dictGet? d s).isSome then dictSet d s (((dictGet? d s).getD []) ++ [v]) else d)
      rest

/-- The per-panel data assembly of `MotorDataPlotter.update` (dataplotter.py
lines 115-125): one converted series per signal of the group, an empty list
for a signal with no history entry. -/
def panelData {α : Type} [Mul α] (d : List (String × List α))
    (conversion : α) (signals : List String) : List (List α) :=
  signals.map (fun s =>
    match dictGet? d s with
    | some vals => vals.map (fun v => v * conversion)
    | none => [])

/-- The panel-update loop of `MotorDataPlotter.update` (dataplotter.py
lines 113-128): `self.handle[i].update(self.time_history, plot_data)` for
each config entry, aborting (flag `false`) if a panel update raises. -/
def updatePlots {α : Type} [Mul α] [One α] (time : List α)
    (d : List (String × List α)) :
    List (PlotConfigEntry α) → List (myPlot α) → List (myPlot α) × Bool
  | [], hs => (hs, true)
  | _ :: _, [] => ([], false)
  | p :: ps, h :: hs =>
    let r := h.update time (panelData d (p.conversion.getD 1) p.signals)
    if r.2 then
      let rest := updatePlots time d ps hs
      (r.1 :: rest.1, rest.2)
    else (r.1 :: hs, r.2)

/-- `MotorDataPlotter.update` (dataplotter.py lines 92-128): append the
timestamp, append each known named value to its history, then update every
panel with the full converted series. -/
def MotorDataPlotter.update {α : Type} [Mul α] [One α]
    (m : MotorDataPlotter α) (t : α) (kwargs : List (String × α)) :
    MotorDataPlotter α × Bool :=
  let th := m.time_history ++ [t]
  let dh := appendValues m.data_histories kwargs
  let r := updatePlots th dh m.plot_config m.handle
  ({ m with time_history := th, data_histories := dh, handle := r.1 }, r.2)

/-- Iterate `MotorDataPlotter.update` over a list of `(t, kwargs)` calls.
The histories are appended before the panels are redrawn, so they advance
even on a call whose panel update raises. -/
def MotorDataPlotter.runUpdates {α : Type} [Mul α] [One α]
    (m : MotorDataPlotter α) : List (α × List (String × α)) → MotorDataPlotter α
  | [] => m
  | u :: rest => ((m.update u.1 u.2).1).runUpdates rest

/-- `kwargs` keys are pairwise distinct: Python keyword arguments form a
dict, so a signal name can occur at most once per call. -/
def keysNodup {β : Type} (kw : List (String × β)) : Prop :=
  (kw.map Prod.fst).Nodup

instance {β : Type} (kw : List (String × β)) : Decidable (keysNodup kw) :=
  inferInstanceAs (Decidable (kw.map Prod.fst).Nodup)

/-!
Embedding of `src/python/motorAnimation.py`.  The trigonometric functions
and π come from numpy, an out-of-scope library, so they are passed in as
parameters (`cosf`, `sinf`, `piv`); theorems over `ℝ` instantiate them with
`Real.cos`, `Real.sin`, `Real.pi`.  Decimal literals of the source are
written as fractions (`0.15 = 15/100`, `1.5 = 3/2`, …).
-/

/-- A primitive registered with the axes: a `plt.Circle` patch (centre,
radius, colour) or a plotted line segment with its data buffers. -/
inductive SceneHandle (α : Type) where
  | circle (cx cy radius : α) (color : String)
  | lineSeg (xdata ydata : List α)
deriving Repr, DecidableEq

/-- A line primitive holding x/y data buffers (`ax.plot([], [])`). -/
structure LineSeg (α : Type) where
  xdata : List α
  ydata : List α
deriving Repr, DecidableEq

/-- The axes title of the animation.  The constructor sets the static
string `AC Motor Visualization`; each update rewrites it with one of the
three f-strings of lines 79-84, which show θ alone, θ and ω, or all of
θ, ω and τ. -/
inductive TitleState (α : Type) where
  | banner
  | thetaOnly (theta : α)
  | thetaOmega (theta omega : α)
  | full (theta omega torque : α)
deriving Repr, DecidableEq

/-- Does the current title text display θ? -/
def TitleState.showsTheta {α : Type} : TitleState α → Bool
  | .banner => false
  | _ => true

/-- Does the current title text display ω? -/
def TitleState.showsOmega {α : Type} : TitleState α → Bool
  | .thetaOmega _ _ => true
  | .full _ _ _ => true
  | _ => false

/-- Does the current title text display τ? -/
def TitleState.showsTorque {α : Type} : TitleState α → Bool
  | .full _ _ _ => true
  | _ => false

/-- State of an `ACMotorAnimation` (motorAnimation.py lines 13-170).
`handle` records the primitives registered with the axes in registration
order; `rotor_bar_handles` and `ref_mark` are the mutable line primitives
that later updates rewrite in place (`ref_mark` is `none` until `drawShaft`
first creates it). -/
structure ACMotorAnimation (α : Type) where
  flagInit : Bool
  stator_radius : α
  rotor_radius : α
  shaft_radius : α
  handle : List (SceneHandle α)
  rotor_bar_handles : List (LineSeg α)
  ref_mark : Option (LineSeg α)
  axis_limits : α × α × α × α
  title : TitleState α
deriving Repr, DecidableEq

/-- `ACMotorAnimation.__init__` (motorAnimation.py lines 14-59): stores the
three radii without any validation and fixes the view bounds at
`±1.5 * stator_radius`. -/
def ACMotorAnimation.construct {α : Type} [Field α]
    (stator_radius rotor_radius shaft_radius : α) : ACMotorAnimation α :=
  let limit := 3 / 2 * stator_radius
  { flagInit := true
    stator_radius := stator_radius
    rotor_radius := rotor_radius
    shaft_radius := shaft_radius
    handle := []
    rotor_bar_handles := []
    ref_mark := none
    axis_limits := (-limit, limit, -limit, limit)
    title := TitleState.banner }

/-- The fixed 3-phase colour palette of the stator coils
(motorAnimation.py line 117). -/
def phaseColors : List String := ["red", "yellow", "blue"]

/-- The six stator-coil patches (motorAnimation.py lines 110-120): coil `i`
sits at angle `i·π/3`, at radius `stator_radius - 0.15`, has radius `0.08`
and colour `phaseColors[i mod 3]`. -/
def statorCoils {α : Type} [Field α] (cosf sinf : α → α)
    (piv stator_radius : α) : List (SceneHandle α) :=
  (List.range 6).map (fun (i : Nat) =>
    let angle := (i : α) * piv / 3
    SceneHandle.circle ((stator_radius - 15 / 100) * cosf angle)
      ((stator_radius - 15 / 100) * sinf angle) (8 / 100)
      (phaseColors.getD (i % 3) ""))

/-- `ACMotorAnimation.drawStator` (motorAnimation.py lines 90-120): on the
first call register the outer casing, the inner boundary and the six coil
patches; afterwards a no-op (the patches are constructed but discarded). -/
def ACMotorAnimation.drawStator {α : Type} [Field α] (cosf sinf : α → α)
    (piv : α) (st : ACMotorAnimation α) : ACMotorAnimation α :=
  if st.flagInit then
    { st with handle := st.handle ++
        [SceneHandle.circle 0 0 (st.stator_radius) "gray",
         SceneHandle.circle 0 0 (st.rotor_radius + 5 / 100) "white"] ++
        statorCoils cosf sinf piv st.stator_radius }
  else st

/-- The rotor-bar loop of `drawRotor` (motorAnimation.py lines 142-150):
bar `i` runs radially at angle `theta + i·2π/8` between radii `r_inner` and
`r_outer`; each existing bar handle gets fresh endpoint buffers. -/
def setRotorBars {α : Type} [Field α] (cosf sinf : α → α)
    (piv theta r_inner r_outer : α) :
    Nat → List (LineSeg α) → List (LineSeg α)
  | _, [] => []
  | i, _ :: rest =>
    let angle := theta + (i : α) * 2 * piv / 8
    { xdata := [r_inner * cosf angle, r_outer * cosf angle],
      ydata := [r_inner * sinf angle, r_outer * sinf angle] } ::
      setRotorBars cosf sinf piv theta r_inner r_outer (i + 1) rest

/-- `ACMotorAnimation.drawRotor` (motorAnimation.py lines 122-150): on the
first call register the rotor body and eight empty bar segments; on every
call rewrite all bar endpoints from `theta`. -/
def ACMotorAnimation.drawRotor {α : Type} [Field α] (cosf sinf : α → α)
    (piv : α) (st : ACMotorAnimation α) (theta : α) : ACMotorAnimation α :=
  let st' :=
    if st.flagInit then
      { st with
        handle := st.handle ++
          [SceneHandle.circle 0 0 (st.rotor_radius) "lightblue"] ++
          (List.range 8).map (fun _ => SceneHandle.lineSeg [] []),
        rotor_bar_handles :=
          (List.range 8).map (fun _ => { xdata := [], ydata := [] }) }
    else st
  let bars := setRotorBars cosf sinf piv theta (st'.shaft_radius + 5 / 100)
    (st'.rotor_radius - 5 / 100) 0 st'.rotor_bar_handles
  { st' with rotor_bar_handles := bars }

/-- `ACMotorAnimation.drawShaft` (motorAnimation.py lines 152-170): on the
first call register the shaft disk and an empty reference-mark segment; on
every call rewrite the reference mark to run from the origin to
`(shaft_radius·cos θ, shaft_radius·sin θ)`. -/
def ACMotorAnimation.drawShaft {α : Type} [Field α] (cosf sinf : α → α)
    (st : ACMotorAnimation α) (theta : α) : ACMotorAnimation α :=
  let st' :=
    if st.flagInit then
      { st with
        handle := st.handle ++
          [SceneHandle.circle 0 0 (st.shaft_radius) "darkgray",
           SceneHandle.lineSeg [] []],
        ref_mark := some { xdata := [], ydata := [] } }
    else st
  { st' with ref_mark := st'.ref_mark.map (fun _ =>
      { xdata := [0, st'.shaft_radius * cosf theta],
        ydata := [0, st'.shaft_radius * sinf theta] }) }

/-- The title update of `ACMotorAnimation.update` (motorAnimation.py lines
79-84): θ always; ω when it is not `None`; τ only when ω is also not
`None` (the `elif` chain drops a torque supplied without a velocity). -/
def sceneTitle {α : Type} (theta : α) :
    Option α → Option α → TitleState α
  | some w, some tq => TitleState.full theta w tq
  | some w, none => TitleState.thetaOmega theta w
  | none, _ => TitleState.thetaOnly theta

/-- `ACMotorAnimation.update` (motorAnimation.py lines 61-88): redraw the
stator, rotor and shaft, rewrite the title, and clear `flagInit` after the
first call. -/
def ACMotorAnimation.update {α : Type} [Field α] (cosf sinf : α → α)
    (piv : α) (st : ACMotorAnimation α) (theta : α)
    (omega torque : Option α) : ACMotorAnimation α :=
  let st1 := st.drawStator cosf sinf piv
  let st2 := st1.drawRotor cosf sinf piv theta
  let st3 := st2.drawShaft cosf sinf theta
  let st4 := { st3 with title := sceneTitle theta omega torque }
  if st4.flagInit then { st4 with flagInit := false } else st4

/-! Helper lemmas about the dictionary model. -/

theorem dictGet?_dictSet {β : Type} (d : List (String × β)) (k : String)
    (v : β) (s : String) :
    dictGet? (dictSet d k v) s = if k = s then some v else dictGet? d s := by
  induction d with
  | nil => simp [dictSet, dictGet?]
  | cons hd tl ih =>
    obtain ⟨k', v'⟩ := hd
    by_cases hk : k' = k
    · subst hk
      by_cases hs : k' = s <;> simp [dictSet, dictGet?, hs]
    · by_cases hs : k' = s
      · subst hs
        have hk' : ¬k = k' := fun h => hk h.symm
        simp [dictSet, dictGet?, hk, hk']
      · simp [dictSet, dictGet?, hk, hs, ih]

theorem dictGet?_eq_none_of_not_mem {β : Type} (kw : List (String × β))
    (k : String) (h : k ∉ kw.map Prod.fst) : dictGet? kw k = none := by
  induction kw with
  | nil => simp [dictGet?]
  | cons hd tl ih =>
    obtain ⟨k', v'⟩ := hd
    simp only [List.map_cons, List.mem_cons] at h
    push_neg at h
    have hk : ¬k' = k := fun he => h.1 he.symm
    simp [dictGet?, hk, ih h.2]

theorem appendValues_isSome {α : Type} (kw : List (String × α))
    (d : List (String × List α)) (s : String) :
    (dictGet? (appendValues d kw) s).isSome = (dictGet? d s).isSome := by
  induction kw generalizing d with
  | nil => simp [appendValues]
  | cons hd tl ih =>
    obtain ⟨k, v⟩ := hd
    rw [appendValues, ih]
    by_cases hk : (dictGet? d k).isSome
    · simp only [hk, if_true, dictGet?_dictSet]
      by_cases hs : k = s
      · subst hs; simp [hk]
      · simp [hs]
    · simp [hk]

theorem appendValues_lookup {α : Type} (kw : List (String × α))
    (d : List (String × List α)) (s : String) (hnd : keysNodup kw) :
    dictGet? (appendValues d kw) s =
      match dictGet? kw s, dictGet? d s with
      | some v, some l => some (l ++ [v])
      | _, _ => dictGet? d s := by
  induction kw generalizing d with
  | nil => simp [appendValues, dictGet?]
  | cons hd tl ih =>
    obtain ⟨k, v⟩ := hd
    have hnd' : keysNodup tl := by
      simpa [keysNodup] using (List.nodup_cons.mp hnd).2
    have hknot : k ∉ tl.map Prod.fst := by
      simpa [keysNodup] using (List.nodup_cons.mp hnd).1
    rw [appendValues, ih _ hnd']
    by_cases hs : k = s
    · subst hs
      rw [dictGet?_eq_none_of_not_mem tl k hknot]
      by_cases hd : (dictGet? d k).isSome
      · obtain ⟨l, hl⟩ := Option.isSome_iff_exists.mp hd
        simp [hd, hl, dictGet?, dictGet?_dictSet]
      · have : dictGet? d k = none := Option.not_isSome_iff_eq_none.mp hd
        simp [hd, this, dictGet?]
    · have hget : dictGet? ((k, v) :: tl) s = dictGet? tl s := by
        simp [dictGet?, hs]
      rw [hget]
      by_cases hd : (dictGet? d k).isSome
      · simp only [hd, if_true, dictGet?_dictSet, hs, if_false]
      · simp [hd]

theorem appendValues_skip {α : Type} (k1 k2 : List (String × α))
    (s0 : String) (v : α) (d : List (String × List α))
    (h : dictGet? d s0 = none) :
    appendValues d (k1 ++ (s0, v) :: k2) = appendValues d (k1 ++ k2) := by
  induction k1 generalizing d with
  | nil => simp [appendValues, h]
  | cons hd tl ih =>
    obtain ⟨k, w⟩ := hd
    simp only [List.cons_append, appendValues]
    apply ih
    by_cases hk : (dictGet? d k).isSome
    · rw [if_pos hk, dictGet?_dictSet]
      by_cases hks : k = s0
      · subst hks; rw [h] at hk; simp at hk
      · simp [hks, h]
    · rw [if_neg hk]; exact h

theorem initSignals_lookup {α : Type} (ss : List String)
    (d : List (String × List α)) (s : String) :
    dictGet? (initSignals d ss) s =
      if s ∈ ss then some [] else dictGet? d s := by
  induction ss generalizing d with
  | nil => simp [initSignals]
  | cons s0 rest ih =>
    rw [initSignals, ih]
    by_cases hr : s ∈ rest
    · simp [hr, List.mem_cons]
    · by_cases hs : s = s0
      · subst hs
        simp [hr, dictGet?_dictSet]
      · have hs' : ¬s0 = s := fun he => hs he.symm
        simp [hr, hs, hs', dictGet?_dictSet]

theorem initHistories_lookup {α : Type} (cfg : List (PlotConfigEntry α))
    (d : List (String × List α)) (s : String) :
    dictGet? (initHistories d cfg) s =
      if s ∈ declaredSignals cfg then some [] else dictGet? d s := by
  induction cfg generalizing d with
  | nil => simp [initHistories, declaredSignals]
  | cons p rest ih =>
    rw [initHistories, ih, declaredSignals]
    by_cases hr : s ∈ declaredSignals rest
    · simp [hr]
    · rw [if_neg hr, initSignals_lookup]
      by_cases hp : s ∈ p.signals
      · simp [hp]
      · simp [hp, hr]

/-! Helper lemmas about `buildLines` and `setLines`. -/

theorem buildLines_ids {α : Type} (legend : Option (List String))
    (c s : List String) (t : List α) (data : List (List α)) (i : Nat) :
    (buildLines legend c s t i data).1.map Line2D.id =
      List.range' i (buildLines legend c s t i data).1.length := by
  induction data generalizing i with
  | nil => simp [buildLines]
  | cons d rest ih =>
    cases legend with
    | none => simp [buildLines, ih, List.range'_succ]
    | some lg =>
      by_cases h : i < lg.length
      · simp [buildLines, h, ih, List.range'_succ]
      · simp [buildLines, h]

theorem buildLines_ok_length {α : Type} (legend : Option (List String))
    (c s : List String) (t : List α) (data : List (List α)) (i : Nat)
    (h : (buildLines legend c s t i data).2 = true) :
    (buildLines legend c s t i data).1.length = data.length := by
  induction data generalizing i with
  | nil => simp [buildLines]
  | cons d rest ih =>
    cases legend with
    | none =>
      rw [buildLines] at h ⊢
      simpa using ih (i + 1) (by simpa using h)
    | some lg =>
      by_cases hl : i < lg.length
      · rw [buildLines] at h ⊢
        simp only [hl, dif_pos] at h ⊢
        simpa using ih (i + 1) (by simpa using h)
      · rw [buildLines] at h
        simp [hl] at h

theorem buildLines_ok {α : Type} (legend : Option (List String))
    (c s : List String) (t : List α) (data : List (List α)) (i : Nat)
    (h : ∀ lg, legend = some lg → i + data.length ≤ lg.length) :
    (buildLines legend c s t i data).2 = true := by
  induction data generalizing i with
  | nil => cases legend <;> simp [buildLines]
  | cons d rest ih =>
    cases legend with
    | none =>
      rw [buildLines]
      simpa using ih (i + 1) (by simp)
    | some lg =>
      have hlg := h lg rfl
      have hi : i < lg.length := by
        simp only [List.length_cons] at hlg; omega
      rw [buildLines]
      simp only [hi, dif_pos]
      refine ih (i + 1) ?_
      intro lg' he
      obtain rfl : lg' = lg := by injection he with he'; exact he'.symm
      simp only [List.length_cons] at hlg; omega

theorem buildLines_get {α : Type} (legend : Option (List String))
    (c s : List String) (t : List α) (data : List (List α)) (i j : Nat)
    (ln : Line2D α)
    (h : (buildLines legend c s t i data).1.get? j = some ln) :
    ∃ d, data.get? j = some d ∧ ln.ydata = d ∧ ln.xdata = t := by
  induction data generalizing i j with
  | nil => simp [buildLines] at h
  | cons d rest ih =>
    cases legend with
    | none =>
      rw [buildLines] at h
      cases j with
      | zero =>
        simp only [List.get?_cons_zero, Option.some.injEq] at h
        exact ⟨d, rfl, by rw [← h], by rw [← h]⟩
      | succ j' =>
        simp only [List.get?_cons_succ] at h
        simpa using ih (i + 1) j' h
    | some lg =>
      by_cases hl : i < lg.length
      · rw [buildLines] at h
        simp only [hl, dif_pos] at h
        cases j with
        | zero =>
          simp only [List.get?_cons_zero, Option.some.injEq] at h
          exact ⟨d, rfl, by rw [← h], by rw [← h]⟩
        | succ j' =>
          simp only [List.get?_cons_succ] at h
          simpa using ih (i + 1) j' h
      · rw [buildLines] at h
        simp [hl] at h

theorem buildLines_style {α : Type} (legend : Option (List String))
    (c s : List String) (t : List α) (data : List (List α)) (i j : Nat)
    (ln : Line2D α)
    (h : (buildLines legend c s t i data).1.get? j = some ln) :
    ln.color = c.getD ((i + j) % c.length) "" ∧
      ln.ls = s.getD ((i + j) % s.length) "" := by
  induction data generalizing i j with
  | nil => simp [buildLines] at h
  | cons d rest ih =>
    cases legend with
    | none =>
      rw [buildLines] at h
      cases j with
      | zero =>
        simp only [List.get?_cons_zero, Option.some.injEq] at h
        constructor <;> simp [← h]
      | succ j' =>
        simp only [List.get?_cons_succ] at h
        have := ih (i + 1) j' (by simpa using h)
        simpa [Nat.add_assoc, Nat.add_comm 1 j'] using this
    | some lg =>
      by_cases hl : i < lg.length
      · rw [buildLines] at h
        simp only [hl, dif_pos] at h
        cases j with
        | zero =>
          simp only [List.get?_cons_zero, Option.some.injEq] at h
          constructor <;> simp [← h]
        | succ j' =>
          simp only [List.get?_cons_succ] at h
          have := ih (i + 1) j' (by simpa using h)
          simpa [Nat.add_assoc, Nat.add_comm 1 j'] using this
      · rw [buildLines] at h
        simp [hl] at h

theorem buildLines_fail {α : Type} (lg : List String)
    (c s : List String) (t : List α) (data : List (List α)) (i : Nat)
    (h1 : i ≤ lg.length) (h2 : lg.length < i + data.length) :
    (buildLines (some lg) c s t i data).2 = false ∧
      (buildLines (some lg) c s t i data).1.length = lg.length - i := by
  induction data generalizing i with
  | nil => simp only [List.length_nil] at h2; omega
  | cons d rest ih =>
    by_cases hl : i < lg.length
    · rw [buildLines]
      simp only [hl, dif_pos]
      have := ih (i + 1) (by omega) (by simp only [List.length_cons] at h2; omega)
      refine ⟨by simpa using this.1, ?_⟩
      simp only [List.length_cons]
      rw [this.2]
      omega
    · have : i = lg.length := by omega
      rw [buildLines]
      simp [hl, this]

theorem setLines_length {α : Type} (t : List α) (ls : List (Line2D α))
    (data : List (List α)) :
    (setLines t ls data).1.length = ls.length := by
  induction ls generalizing data with
  | nil => simp [setLines]
  | cons l rest ih =>
    cases data with
    | nil => simp [setLines]
    | cons d ds => simp [setLines, ih]

theorem setLines_ids {α : Type} (t : List α) (ls : List (Line2D α))
    (data : List (List α)) :
    (setLines t ls data).1.map Line2D.id = ls.map Line2D.id := by
  induction ls generalizing data with
  | nil => simp [setLines]
  | cons l rest ih =>
    cases data with
    | nil => simp [setLines]
    | cons d ds => simp [setLines, ih]

theorem setLines_ok {α : Type} (t : List α) (ls : List (Line2D α))
    (data : List (List α)) (h : ls.length ≤ data.length) :
    (setLines t ls data).2 = true := by
  induction ls generalizing data with
  | nil => simp [setLines]
  | cons l rest ih =>
    cases data with
    | nil => simp at h
    | cons d ds =>
      rw [setLines]
      exact ih ds (by simpa using h)

theorem setLines_get {α : Type} (t : List α) (ls : List (Line2D α))
    (data : List (List α)) (j : Nat) (ln : Line2D α)
    (h : (setLines t ls data).2 = true)
    (hg : (setLines t ls data).1.get? j = some ln) :
    ∃ l0 d, ls.get? j = some l0 ∧ data.get? j = some d ∧
      ln = { l0 with xdata := t, ydata := d } := by
  induction ls generalizing data j with
  | nil => simp [setLines] at hg
  | cons l rest ih =>
    cases data with
    | nil => simp [setLines] at h
    | cons d ds =>
      rw [setLines] at h hg
      cases j with
      | zero =>
        simp only [List.get?_cons_zero, Option.some.injEq] at hg
        exact ⟨l, d, rfl, rfl, hg.symm⟩
      | succ j' =>
        simp only [List.get?_cons_succ] at hg
        simpa using ih ds j' (by simpa using h) hg

/-! Helper lemmas about `myPlot.update` and the panel-update loop. -/

theorem myPlot_update_get {α : Type} (p : myPlot α) (t : List α)
    (data : List (List α)) (j : Nat) (ln : Line2D α)
    (hfresh : p.init = true → p.line = [])
    (hok : (p.update t data).2 = true)
    (hg : (p.update t data).1.line.get? j = some ln) :
    ∃ d, data.get? j = some d ∧ ln.ydata = d ∧ ln.xdata = t := by
  by_cases hi : p.init = true
  · have hl : p.line = [] := hfresh hi
    rw [myPlot.update] at hok hg
    simp only [hi, if_true] at hok hg
    by_cases hr : (buildLines p.legend p.colors p.line_styles t 0 data).2 = true
    · simp only [hr, if_true] at hg
      rw [hl] at hg
      simp only [List.nil_append] at hg
      exact buildLines_get p.legend p.colors p.line_styles t data 0 j ln hg
    · simp only [hr, if_false] at hok
      simp at hok
  · have hi' : p.init = false := by
      cases h : p.init
      · rfl
      · exact absurd h hi
    rw [myPlot.update] at hok hg
    simp only [hi', Bool.false_eq_true, if_false] at hok hg
    obtain ⟨l0, d, _, hd, hln⟩ := setLines_get t p.line data j ln hok hg
    exact ⟨d, hd, by rw [hln], by rw [hln]⟩

theorem updatePlots_get {α : Type} [Mul α] [One α] (t : List α)
    (d : List (String × List α)) (cfgs : List (PlotConfigEntry α))
    (hs : List (myPlot α)) (g : Nat) (p : PlotConfigEntry α)
    (hok : (updatePlots t d cfgs hs).2 = true)
    (hg : cfgs.get? g = some p) :
    ∃ h, hs.get? g = some h ∧
      (updatePlots t d cfgs hs).1.get? g =
        some (h.update t (panelData d (p.conversion.getD 1) p.signals)).1 ∧
      (h.update t (panelData d (p.conversion.getD 1) p.signals)).2 = true := by
  induction cfgs generalizing hs g with
  | nil => simp at hg
  | cons p0 ps ih =>
    cases hs with
    | nil => rw [updatePlots] at hok; simp at hok
    | cons h0 hrest =>
      rw [updatePlots] at hok ⊢
      by_cases hr : (h0.update t (panelData d (p0.conversion.getD 1) p0.signals)).2 = true
      · simp only [hr, if_true] at hok ⊢
        cases g with
        | zero =>
          obtain rfl : p0 = p := by simpa using hg
          exact ⟨h0, rfl, by simp, hr⟩
        | succ g' =>
          obtain ⟨h, h1, h2, h3⟩ := ih hrest g' hok (by simpa using hg)
          exact ⟨h, by simpa using h1, by simpa using h2, h3⟩
      · simp only [hr, if_false] at hok
        simp at hok

/-! Claim C10: a too-short legend makes the first `update` fail part-way
through initialisation. -/

/-- Claim C10: for a fresh `myPlot` whose legend is strictly shorter than
the number of data series of the first `update`, that call raises an index
error (flag `false`), leaves exactly `len(legend)` lines registered (the
ones built before the failing index, with ids `0..len(legend)-1`), and
leaves `init` still `True`; the constructor itself raises nothing (it is a
total function in this embedding). -/
theorem claim_C10 {α : Type} (xl yl tl : String) (lg : List String)
    (time : List α) (data : List (List α))
    (h : lg.length < data.length) :
    ((myPlot.construct xl yl tl (some lg)).update time data).2 = false ∧
    ((myPlot.construct xl yl tl (some lg)).update time data).1.line.length = lg.length ∧
    ((myPlot.construct xl yl tl (some lg)).update time data).1.line.map Line2D.id =
      List.range lg.length ∧
    ((myPlot.construct xl yl tl (some lg)).update time data).1.init = true := by
  have hfail := buildLines_fail lg myPlotColors myPlotLineStyles time data 0
    (Nat.zero_le _) (by simpa using h)
  have hids := buildLines_ids (α := α) (some lg) myPlotColors myPlotLineStyles time data 0
  have hnot : ¬((buildLines (some lg) myPlotColors myPlotLineStyles time 0 data).2 = true) := by
    simp [hfail.1]
  refine ⟨?_, ?_, ?_, ?_⟩
  · simp only [myPlot.update, myPlot.construct, if_true, if_neg hnot]
  · simp only [myPlot.update, myPlot.construct, if_true, if_neg hnot, List.nil_append]
    simpa using hfail.2
  · simp only [myPlot.update, myPlot.construct, if_true, if_neg hnot, List.nil_append]
    rw [hids, hfail.2]
    simp [List.range_eq_range']
  · simp only [myPlot.update, myPlot.construct, if_true, if_neg hnot]

/-- Claim C10 witness: legend `[x]` with three data series over `ℚ`. -/
theorem claim_C10_witness :
    1 < 3 ∧
    ((myPlot.construct blank blank blank (some ["x"])).update [(0 : ℚ)]
        [[1], [2], [3]]).2 = false ∧
    ((myPlot.construct blank blank blank (some ["x"])).update [(0 : ℚ)]
        [[1], [2], [3]]).1.line.length = 1 ∧
    ((myPlot.construct blank blank blank (some ["x"])).update [(0 : ℚ)]
        [[1], [2], [3]]).1.init = true := by
  have h := claim_C10 (α := ℚ) blank blank blank ["x"] [0] [[1], [2], [3]]
    (by decide)
  exact ⟨by decide, h.1, h.2.1.trans (by decide), h.2.2.2⟩

/-! Claim C8: deterministic style assignment. -/

/-- Claim C8: the palettes have exactly 7 colours and 5 styles, and the
`i`-th line created by a panel's first `update` always receives colour
`colors[i mod 7]` and style `line_styles[i mod 5]`, whatever the group size
or the data values. -/
theorem claim_C8 :
    myPlotColors.length = 7 ∧ myPlotLineStyles.length = 5 ∧
    ∀ (α : Type) (xl yl tl : String) (legend : Option (List String))
      (time : List α) (data : List (List α)) (j : Nat) (ln : Line2D α),
      ((myPlot.construct xl yl tl legend).update time data).1.line.get? j = some ln →
      ln.color = myPlotColors.getD (j % 7) "" ∧
        ln.ls = myPlotLineStyles.getD (j % 5) "" := by
  refine ⟨rfl, rfl, ?_⟩
  intro α xl yl tl legend time data j ln hg
  have h7 : myPlotColors.length = 7 := rfl
  have h5 : myPlotLineStyles.length = 5 := rfl
  rw [myPlot.update] at hg
  simp only [myPlot.construct, if_true, List.nil_append] at hg
  by_cases hr : (buildLines legend myPlotColors myPlotLineStyles time 0 data).2 = true
  · simp only [hr, if_true] at hg
    have := buildLines_style legend myPlotColors myPlotLineStyles time data 0 j ln hg
    simpa [h7, h5] using this
  · simp only [hr, if_false] at hg
    have := buildLines_style legend myPlotColors myPlotLineStyles time data 0 j ln hg
    simpa [h7, h5] using this

/-- Claim C8 witness: the second line (index 1) of a two-signal panel over
`ℚ` gets colour `g` and solid style. -/
theorem claim_C8_witness :
    ((myPlot.construct blank blank blank none).update [(0 : ℚ)]
        [[1], [2]]).1.line.get? 1 =
      some { id := 1, xdata := [0], ydata := [2], color := "g", ls := "-",
             label := none } ∧
    ("g" : String) = myPlotColors.getD (1 % 7) "" ∧
    ("-" : String) = myPlotLineStyles.getD (1 % 5) "" := by
  have h := claim_C8.2.2 ℚ blank blank blank none [0] [[1], [2]] 1
    { id := 1, xdata := [0], ydata := [2], color := "g", ls := "-", label := none }
    (by decide)
  exact ⟨by decide, h.1.symm, h.2.symm⟩

/-! Claim C3: construction-time validation.  The code performs none. -/

/-- Claim C3 counterexample: constructing with a group of 2 signals and 3
legend labels does not raise a `ConfigurationError`: it yields a normal
plotter with the mismatched legend stored verbatim, and even the first
update completes without error (the legend is long enough for the loop
indices it is asked for). -/
theorem claim_C3_counterexample :
    (MotorDataPlotter.construct (α := ℚ)
        [{ signals := ["a", "b"], legend := some ["x", "y", "z"] }]).handle.map
        myPlot.legend = [some ["x", "y", "z"]] ∧
    (MotorDataPlotter.construct (α := ℚ)
        [{ signals := ["a", "b"], legend := some ["x", "y", "z"] }]).time_history = [] ∧
    ((MotorDataPlotter.construct (α := ℚ)
        [{ signals := ["a", "b"], legend := some ["x", "y", "z"] }]).update 0
        [("a", 1), ("b", 2)]).2 = true := by
  refine ⟨by decide, rfl, by decide⟩

/-- Claim C3 amended: `MotorDataPlotter` construction performs no
validation at all; every configuration (zero groups included, legend-length
mismatches included) produces a plotter with one panel per group, the
legend of each group stored verbatim and unchecked. -/
theorem claim_C3 {α : Type} (cfg : List (PlotConfigEntry α)) :
    (MotorDataPlotter.construct cfg).handle.length = cfg.length ∧
    (MotorDataPlotter.construct cfg).time_history = [] ∧
    ∀ g p, cfg.get? g = some p →
      (MotorDataPlotter.construct cfg).handle.get? g =
        some (myPlot.construct p.xlabel p.ylabel p.title p.legend) := by
  refine ⟨by simp [MotorDataPlotter.construct], rfl, ?_⟩
  intro g p hg
  have hh : (MotorDataPlotter.construct cfg).handle = cfg.map
      (fun q => myPlot.construct q.xlabel q.ylabel q.title q.legend) := rfl
  rw [hh, List.get?_map, hg]
  rfl

/-- Claim C3 witness: the amended claim evaluated on the 2-signal,
3-label group and on the empty configuration. -/
theorem claim_C3_witness :
    (MotorDataPlotter.construct (α := ℚ)
        [{ signals := ["a", "b"], legend := some ["x", "y", "z"] }]).handle.get? 0 =
      some (myPlot.construct blank blank blank (some ["x", "y", "z"])) ∧
    (MotorDataPlotter.construct (α := ℚ) []).handle.length = 0 := by
  constructor
  · exact (claim_C3 (α := ℚ)
      [{ signals := ["a", "b"], legend := some ["x", "y", "z"] }]).2.2 0
      { signals := ["a", "b"], legend := some ["x", "y", "z"] } rfl
  · exact (claim_C3 (α := ℚ) []).1

/-! Claim C9: unknown signal names are silently dropped. -/

/-- Claim C9: a named value whose signal name has no history entry leaves
`update` completely unchanged — the call with the unknown entry returns
exactly the same state and success flag as the call without it — and no
history key is ever created or destroyed by an update. -/
theorem claim_C9 {α : Type} [Mul α] [One α] (m : MotorDataPlotter α) (t : α)
    (k1 k2 : List (String × α)) (s0 : String) (v : α)
    (h : dictGet? m.data_histories s0 = none) :
    m.update t (k1 ++ (s0, v) :: k2) = m.update t (k1 ++ k2) ∧
    ∀ s, (dictGet? ((m.update t (k1 ++ (s0, v) :: k2)).1.data_histories) s).isSome =
      (dictGet? m.data_histories s).isSome := by
  have hap := appendValues_skip k1 k2 s0 v m.data_histories h
  constructor
  · simp only [MotorDataPlotter.update, hap]
  · intro s
    have hdh : (m.update t (k1 ++ (s0, v) :: k2)).1.data_histories
        = appendValues m.data_histories (k1 ++ (s0, v) :: k2) := rfl
    rw [hdh, appendValues_isSome]

/-- Claim C9 witness: an update carrying only the unknown name `zz` equals
the empty update, and creates no `zz` history key. -/
theorem claim_C9_witness :
    (MotorDataPlotter.construct (α := ℚ) [{ signals := ["a"] }]).update 0
        [("zz", 5)] =
      (MotorDataPlotter.construct (α := ℚ) [{ signals := ["a"] }]).update 0 [] ∧
    (dictGet? (((MotorDataPlotter.construct (α := ℚ)
        [{ signals := ["a"] }]).update 0 [("zz", 5)]).1.data_histories)
        "zz").isSome = false := by
  have h := claim_C9 (MotorDataPlotter.construct (α := ℚ) [{ signals := ["a"] }])
    0 [] [] "zz" 5 (by decide)
  refine ⟨h.1, ?_⟩
  have h2 := h.2 "zz"
  simp only [List.nil_append] at h2
  rw [h2]
  decide

/-! Claim C1: idempotent initialisation of a panel. -/

/-- After a panel has left its init phase, any run of well-sized updates
succeeds and neither adds nor removes lines, and the line identities are
untouched. -/
theorem runUpdates_stable {α : Type} (k : Nat)
    (calls : List (List α × List (List α))) (p : myPlot α)
    (hInit : p.init = false) (hLen : p.line.length = k)
    (hcalls : ∀ c ∈ calls, c.2.length = k) :
    (p.runUpdates calls).2 = true ∧
    (p.runUpdates calls).1.init = false ∧
    (p.runUpdates calls).1.line.map Line2D.id = p.line.map Line2D.id := by
  induction calls generalizing p with
  | nil => exact ⟨rfl, hInit, rfl⟩
  | cons c rest ih =>
    have hck : c.2.length = k := hcalls c (List.mem_cons_self _ _)
    have hup2 : (p.update c.1 c.2).2 = true := by
      rw [myPlot.update]
      simp only [hInit, Bool.false_eq_true, if_false]
      exact setLines_ok c.1 p.line c.2 (by rw [hLen, hck])
    have hupInit : (p.update c.1 c.2).1.init = false := by
      rw [myPlot.update]
      simp only [hInit, Bool.false_eq_true, if_false]
    have hupLen : (p.update c.1 c.2).1.line.length = k := by
      rw [myPlot.update]
      simp only [hInit, Bool.false_eq_true, if_false]
      exact (setLines_length c.1 p.line c.2).trans hLen
    have hupIds : (p.update c.1 c.2).1.line.map Line2D.id = p.line.map Line2D.id := by
      rw [myPlot.update]
      simp only [hInit, Bool.false_eq_true, if_false]
      exact setLines_ids c.1 p.line c.2
    rw [myPlot.runUpdates]
    simp only [hup2, if_true]
    have hrec := ih (p.update c.1 c.2).1 hupInit hupLen
      (fun c' hc' => hcalls c' (List.mem_cons_of_mem _ hc'))
    exact ⟨hrec.1, hrec.2.1, hrec.2.2.trans hupIds⟩

/-- Claim C1: a freshly constructed panel over a group with `k` signals
(legend, if present, covering all `k`), fed any succession of `k`-series
updates, builds its `k` lines during the first call only: after every
prefix of `n ≥ 1` calls, all calls so far have succeeded, the panel holds
exactly the `k` lines with identities `0..k-1` created by the first call,
and the init flag is permanently cleared, so the initialisation branch
never runs again. -/
theorem claim_C1 {α : Type} (xl yl tl : String) (legend : Option (List String))
    (k : Nat) (calls : List (List α × List (List α))) (n : Nat)
    (hleg : ∀ lg, legend = some lg → k ≤ lg.length)
    (hdata : ∀ c ∈ calls, c.2.length = k)
    (hn1 : 1 ≤ n) (hn2 : n ≤ calls.length) :
    ((myPlot.construct xl yl tl legend).runUpdates (calls.take n)).2 = true ∧
    ((myPlot.construct xl yl tl legend).runUpdates (calls.take n)).1.line.map
      Line2D.id = List.range k ∧
    ((myPlot.construct xl yl tl legend).runUpdates (calls.take n)).1.init = false := by
  cases calls with
  | nil => simp at hn2; omega
  | cons c rest =>
    obtain ⟨n', rfl⟩ : ∃ n', n = n' + 1 := ⟨n - 1, by omega⟩
    rw [List.take_succ_cons]
    have hck : c.2.length = k := hdata c (List.mem_cons_self _ _)
    have hok : (buildLines legend myPlotColors myPlotLineStyles c.1 0 c.2).2 = true :=
      buildLines_ok _ _ _ _ _ _ (fun lg he => by simpa [hck] using hleg lg he)
    have hlen1 : (buildLines legend myPlotColors myPlotLineStyles c.1 0 c.2).1.length = k :=
      (buildLines_ok_length _ _ _ _ _ _ hok).trans hck
    have hids1 : (buildLines legend myPlotColors myPlotLineStyles c.1 0 c.2).1.map
        Line2D.id = List.range k := by
      rw [buildLines_ids, hlen1, List.range_eq_range']
    have hg1 : (myPlot.construct (α := α) xl yl tl legend).update c.1 c.2 =
        ({ myPlot.construct (α := α) xl yl tl legend with
            line := (buildLines legend myPlotColors myPlotLineStyles c.1 0 c.2).1,
            init := false }, true) := by
      rw [myPlot.update]
      simp only [myPlot.construct, if_true, hok, List.nil_append]
    rw [myPlot.runUpdates]
    rw [hg1]
    simp only [if_true]
    have hstable := runUpdates_stable k (rest.take n')
      ({ myPlot.construct (α := α) xl yl tl legend with
          line := (buildLines legend myPlotColors myPlotLineStyles c.1 0 c.2).1,
          init := false }) rfl hlen1
      (fun c' hc' => hdata c' (List.mem_cons_of_mem _ (List.take_subset _ _ hc')))
    exact ⟨hstable.1, hstable.2.2.trans hids1, hstable.2.1⟩

/-- Claim C1 witness: two signals, two updates over `ℚ`; after both the
first and the second call the panel holds exactly lines `0` and `1`. -/
theorem claim_C1_witness :
    ((myPlot.construct blank blank blank none).runUpdates
        (List.take 2 [([0], [[1], [2]]), ([0, 1], [[(1 : ℚ), 3], [2, 4]])])).2 = true ∧
    ((myPlot.construct blank blank blank none).runUpdates
        (List.take 2 [([0], [[1], [2]]), ([0, 1], [[(1 : ℚ), 3], [2, 4]])])).1.line.map
      Line2D.id = List.range 2 ∧
    ((myPlot.construct blank blank blank none).runUpdates
        (List.take 2 [([0], [[1], [2]]), ([0, 1], [[(1 : ℚ), 3], [2, 4]])])).1.init
      = false := by
  have h := claim_C1 (α := ℚ) blank blank blank none 2
    [([0], [[1], [2]]), ([0, 1], [[1, 3], [2, 4]])] 2
    (fun lg he => by simp at he) (by decide) (by decide) (by decide)
  exact ⟨h.1, h.2.1, h.2.2⟩

/-! Claim C4: history monotonicity. -/

/-- Each update appends exactly one timestamp. -/
theorem runUpdates_time {α : Type} [Mul α] [One α]
    (updates : List (α × List (String × α))) (m : MotorDataPlotter α) :
    (m.runUpdates updates).time_history.length
      = m.time_history.length + updates.length := by
  induction updates generalizing m with
  | nil => simp [MotorDataPlotter.runUpdates]
  | cons u rest ih =>
    rw [MotorDataPlotter.runUpdates, ih]
    have hth : (m.update u.1 u.2).1.time_history = m.time_history ++ [u.1] := rfl
    rw [hth]
    simp only [List.length_append, List.length_cons, List.length_nil]
    omega

/-- Each update whose kwargs carry signal `s` (once, as a Python dict
guarantees) appends exactly one value to the history of `s`. -/
theorem runUpdates_hist {α : Type} [Mul α] [One α]
    (updates : List (α × List (String × α))) (m : MotorDataPlotter α)
    (s : String)
    (hwf : ∀ u ∈ updates, keysNodup u.2 ∧ (dictGet? u.2 s).isSome = true)
    (l : List α) (hl : dictGet? m.data_histories s = some l) :
    ∃ l', dictGet? ((m.runUpdates updates).data_histories) s = some l' ∧
      l'.length = l.length + updates.length := by
  induction updates generalizing m l with
  | nil => exact ⟨l, hl, by simp⟩
  | cons u rest ih =>
    obtain ⟨hnd, hsome⟩ := hwf u (List.mem_cons_self _ _)
    obtain ⟨v, hv⟩ := Option.isSome_iff_exists.mp hsome
    have hstep : dictGet? ((m.update u.1 u.2).1.data_histories) s = some (l ++ [v]) := by
      have hdh : (m.update u.1 u.2).1.data_histories
          = appendValues m.data_histories u.2 := rfl
      rw [hdh, appendValues_lookup u.2 m.data_histories s hnd, hv, hl]
    obtain ⟨l', hl', hlen⟩ := ih (m.update u.1 u.2).1
      (fun u' hu' => hwf u' (List.mem_cons_of_mem _ hu')) (l ++ [v]) hstep
    refine ⟨l', hl', ?_⟩
    rw [hlen]
    simp only [List.length_append, List.length_cons, List.length_nil]
    omega

/-- Claim C4: a plotter receiving `M` well-formed updates (each call
supplying every declared signal) ends with `len(time_history) = M` and
`len(value_history[s]) = M` for every declared signal `s`. -/
theorem claim_C4 {α : Type} [Mul α] [One α] (cfg : List (PlotConfigEntry α))
    (updates : List (α × List (String × α)))
    (hwf : ∀ u ∈ updates, keysNodup u.2 ∧
      ∀ s ∈ declaredSignals cfg, (dictGet? u.2 s).isSome = true) :
    ((MotorDataPlotter.construct cfg).runUpdates updates).time_history.length
      = updates.length ∧
    ∀ s ∈ declaredSignals cfg, ∃ l,
      dictGet? (((MotorDataPlotter.construct cfg).runUpdates updates).data_histories)
        s = some l ∧ l.length = updates.length := by
  constructor
  · rw [runUpdates_time]
    simp [MotorDataPlotter.construct]
  · intro s hs
    have hinit : dictGet? (MotorDataPlotter.construct cfg).data_histories s
        = some [] := by
      have hd : (MotorDataPlotter.construct cfg).data_histories
          = initHistories [] cfg := rfl
      rw [hd, initHistories_lookup]
      simp [hs]
    obtain ⟨l', h1, h2⟩ := runUpdates_hist updates _ s
      (fun u hu => ⟨(hwf u hu).1, (hwf u hu).2 s hs⟩) [] hinit
    exact ⟨l', h1, by simpa using h2⟩

/-- Claim C4 witness: one declared signal, two well-formed updates over
`ℚ`; the time axis and the signal history both end with length 2. -/
theorem claim_C4_witness :
    ((MotorDataPlotter.construct (α := ℚ) [{ signals := ["a"] }]).runUpdates
        [(0, [("a", 1)]), (1, [("a", 2)])]).time_history.length = 2 ∧
    dictGet? (((MotorDataPlotter.construct (α := ℚ)
        [{ signals := ["a"] }]).runUpdates
        [(0, [("a", 1)]), (1, [("a", 2)])]).data_histories) "a" = some [1, 2] := by
  have h := claim_C4 (α := ℚ) [{ signals := ["a"] }]
    [(0, [("a", 1)]), (1, [("a", 2)])] (by decide)
  exact ⟨h.1, by decide⟩

/-! Claim C2: per-group conversion correctness. -/

/-- Claim C2: after any `MotorDataPlotter.update` that completes, the
y-buffer of the line rendered for signal `s` of a group with conversion
factor `c` is exactly `value_history[s]` scaled element-wise by `c`, and
its x-buffer is the shared time history.  The hypothesis `hInv` is the
representation invariant (a panel still in its init phase has no lines),
which holds for every reachable plotter. -/
theorem claim_C2 {α : Type} [Mul α] [One α] (m : MotorDataPlotter α)
    (t : α) (kwargs : List (String × α)) (g j : Nat)
    (p : PlotConfigEntry α) (s : String) (hdl : myPlot α) (ln : Line2D α)
    (vals : List α)
    (hInv : ∀ h ∈ m.handle, h.init = true → h.line = [])
    (hok : (m.update t kwargs).2 = true)
    (hg : m.plot_config.get? g = some p)
    (hsig : p.signals.get? j = some s)
    (hh : (m.update t kwargs).1.handle.get? g = some hdl)
    (hval : dictGet? ((m.update t kwargs).1.data_histories) s = some vals)
    (hline : hdl.line.get? j = some ln) :
    ln.xdata = (m.update t kwargs).1.time_history ∧
    ln.ydata = vals.map (fun v => v * p.conversion.getD 1) := by
  have hok' : (updatePlots (m.time_history ++ [t])
      (appendValues m.data_histories kwargs) m.plot_config m.handle).2 = true := hok
  obtain ⟨h0, hh0, hup, hup2⟩ := updatePlots_get (m.time_history ++ [t])
    (appendValues m.data_histories kwargs) m.plot_config m.handle g p hok' hg
  have hh' : (m.update t kwargs).1.handle.get? g =
      some (h0.update (m.time_history ++ [t])
        (panelData (appendValues m.data_histories kwargs) (p.conversion.getD 1)
          p.signals)).1 := hup
  have hdl_eq : hdl = (h0.update (m.time_history ++ [t])
      (panelData (appendValues m.data_histories kwargs) (p.conversion.getD 1)
        p.signals)).1 :=
    Option.some.inj (hh.symm.trans hh')
  obtain ⟨dta, hdta, hy, hx⟩ := myPlot_update_get h0 (m.time_history ++ [t])
    (panelData (appendValues m.data_histories kwargs) (p.conversion.getD 1) p.signals)
    j ln (hInv h0 (List.get?_mem hh0)) hup2 (by rw [← hdl_eq]; exact hline)
  have hval' : dictGet? (appendValues m.data_histories kwargs) s = some vals := hval
  have hpd : (panelData (appendValues m.data_histories kwargs) (p.conversion.getD 1)
      p.signals).get? j = some (vals.map (fun v => v * p.conversion.getD 1)) := by
    rw [panelData, List.get?_map, hsig]
    simp [hval']
  rw [hpd] at hdta
  obtain rfl : vals.map (fun v => v * p.conversion.getD 1) = dta :=
    Option.some.inj hdta
  exact ⟨hx, hy⟩

/-- Claim C2 witness (Scenario A): one group over `ℝ` with signals
`theta_ref`, `theta` and conversion `180/π`; after
`update(0, theta_ref = π/4, theta = π/4)` the line rendered for `theta`
carries y-value exactly `45` at x-value `0`. -/
theorem claim_C2_witness :
    Option.map Line2D.ydata
      (Option.bind
        (((MotorDataPlotter.construct (α := ℝ)
            [{ signals := ["theta_ref", "theta"],
               conversion := some (180 / Real.pi) }]).update 0
            [("theta_ref", Real.pi / 4), ("theta", Real.pi / 4)]).1.handle.get? 0)
        (fun h => h.line.get? 1)) = some [(45 : ℝ)] ∧
    Option.map Line2D.xdata
      (Option.bind
        (((MotorDataPlotter.construct (α := ℝ)
            [{ signals := ["theta_ref", "theta"],
               conversion := some (180 / Real.pi) }]).update 0
            [("theta_ref", Real.pi / 4), ("theta", Real.pi / 4)]).1.handle.get? 0)
        (fun h => h.line.get? 1)) = some [(0 : ℝ)] := by
  have hInv : ∀ h ∈ (MotorDataPlotter.construct (α := ℝ)
      [{ signals := ["theta_ref", "theta"],
         conversion := some (180 / Real.pi) }]).handle,
      h.init = true → h.line = [] := by
    intro h hmem _
    have hH : (MotorDataPlotter.construct (α := ℝ)
        [{ signals := ["theta_ref", "theta"],
           conversion := some (180 / Real.pi) }]).handle =
        [myPlot.construct blank blank blank none] := rfl
    rw [hH] at hmem
    rw [List.mem_singleton.mp hmem]
    rfl
  have h := claim_C2 (MotorDataPlotter.construct (α := ℝ)
      [{ signals := ["theta_ref", "theta"], conversion := some (180 / Real.pi) }])
    0 [("theta_ref", Real.pi / 4), ("theta", Real.pi / 4)] 0 1
    { signals := ["theta_ref", "theta"], conversion := some (180 / Real.pi) }
    "theta"
    { legend := none, colors := myPlotColors, line_styles := myPlotLineStyles,
      line :=
        [{ id := 0, xdata := [0], ydata := [Real.pi / 4 * (180 / Real.pi)],
           color := "b", ls := "-", label := none },
         { id := 1, xdata := [0], ydata := [Real.pi / 4 * (180 / Real.pi)],
           color := "g", ls := "-", label := none }],
      xlabel := blank, ylabel := blank, title := blank, init := false }
    { id := 1, xdata := [0], ydata := [Real.pi / 4 * (180 / Real.pi)],
      color := "g", ls := "-", label := none }
    [Real.pi / 4]
    hInv rfl rfl rfl rfl rfl rfl
  have hmul : Real.pi / 4 * (180 / Real.pi) = (45 : ℝ) := by
    rw [div_mul_div_comm, mul_comm]
    rw [mul_div_mul_comm, div_self Real.pi_ne_zero]
    norm_num
  constructor
  · have hfin : (some [Real.pi / 4 * (180 / Real.pi)] : Option (List ℝ)) =
        some [(45 : ℝ)] := by rw [hmul]
    exact Eq.trans (Eq.trans rfl (congrArg some h.2.symm)) (Eq.trans rfl hfin)
  · exact Eq.trans (Eq.trans rfl (congrArg some h.1.symm)) rfl

/-! Claim C5: title asymmetry of the scene renderer. -/

/-- Claim C5: after every scene update the title shows θ; it shows ω
exactly when ω is supplied; and it shows τ exactly when both τ and ω are
supplied — a torque without a velocity is silently not displayed. -/
theorem claim_C5 {α : Type} [Field α] (cosf sinf : α → α) (piv : α)
    (st : ACMotorAnimation α) (theta : α) (omega torque : Option α) :
    (ACMotorAnimation.update cosf sinf piv st theta omega torque).title.showsTheta
      = true ∧
    (ACMotorAnimation.update cosf sinf piv st theta omega torque).title.showsOmega
      = omega.isSome ∧
    (ACMotorAnimation.update cosf sinf piv st theta omega torque).title.showsTorque
      = (omega.isSome && torque.isSome) := by
  have htitle : (ACMotorAnimation.update cosf sinf piv st theta omega torque).title
      = sceneTitle theta omega torque := by
    cases hf : st.flagInit <;>
      simp [ACMotorAnimation.update, ACMotorAnimation.drawStator,
        ACMotorAnimation.drawRotor, ACMotorAnimation.drawShaft, hf]
  rw [htitle]
  cases omega <;> cases torque <;>
    simp [sceneTitle, TitleState.showsTheta, TitleState.showsOmega,
      TitleState.showsTorque]

/-- Claim C5 witness: `update(theta = 1, omega = None, torque = 5)` over
`ℚ` yields a title that shows θ but neither ω nor τ. -/
theorem claim_C5_witness :
    (ACMotorAnimation.update (α := ℚ) id id 0
        (ACMotorAnimation.construct 1 (6 / 10) (15 / 100)) 1 none
        (some 5)).title.showsTheta = true ∧
    (ACMotorAnimation.update (α := ℚ) id id 0
        (ACMotorAnimation.construct 1 (6 / 10) (15 / 100)) 1 none
        (some 5)).title.showsOmega = false ∧
    (ACMotorAnimation.update (α := ℚ) id id 0
        (ACMotorAnimation.construct 1 (6 / 10) (15 / 100)) 1 none
        (some 5)).title.showsTorque = false := by
  have h := claim_C5 (α := ℚ) id id 0
    (ACMotorAnimation.construct 1 (6 / 10) (15 / 100)) 1 none (some 5)
  exact ⟨h.1, by simpa using h.2.1, by simpa using h.2.2⟩

/-! Claim C6: radii validation at scene construction.  The code performs
none. -/

/-- Claim C6 counterexample: the radii `(1, 2, 3)` violate
`stator > rotor > shaft > 0`, yet construction succeeds, stores them
verbatim, and the resulting renderer is perfectly usable — its first
update draws a reference mark from the stored (invalid) shaft radius. -/
theorem claim_C6_counterexample :
    (ACMotorAnimation.construct (α := ℚ) 1 2 3).flagInit = true ∧
    (ACMotorAnimation.construct (α := ℚ) 1 2 3).stator_radius = 1 ∧
    (ACMotorAnimation.construct (α := ℚ) 1 2 3).rotor_radius = 2 ∧
    (ACMotorAnimation.construct (α := ℚ) 1 2 3).shaft_radius = 3 ∧
    ¬((1 : ℚ) > 2 ∧ (2 : ℚ) > 3 ∧ (3 : ℚ) > 0) ∧
    (ACMotorAnimation.update (fun _ => 1) (fun _ => 0) 0
        (ACMotorAnimation.construct (α := ℚ) 1 2 3) 0 none none).ref_mark =
      some { xdata := [0, 3], ydata := [0, 0] } :=
  ⟨rfl, rfl, rfl, rfl, by norm_num,
    by simp [ACMotorAnimation.update, ACMotorAnimation.drawStator,
      ACMotorAnimation.drawRotor, ACMotorAnimation.drawShaft,
      ACMotorAnimation.construct]⟩

/-- Claim C6 amended: `ACMotorAnimation.__init__` performs no validation
of its radii: arbitrary values (ordered or not, positive or not) are
accepted, stored unchanged, and the view bounds are fixed at
`±1.5·stator_radius` regardless. -/
theorem claim_C6 {α : Type} [Field α] (r1 r2 r3 : α) :
    (ACMotorAnimation.construct r1 r2 r3).flagInit = true ∧
    (ACMotorAnimation.construct r1 r2 r3).stator_radius = r1 ∧
    (ACMotorAnimation.construct r1 r2 r3).rotor_radius = r2 ∧
    (ACMotorAnimation.construct r1 r2 r3).shaft_radius = r3 ∧
    (ACMotorAnimation.construct r1 r2 r3).handle = [] ∧
    (ACMotorAnimation.construct r1 r2 r3).ref_mark = none ∧
    (ACMotorAnimation.construct r1 r2 r3).axis_limits =
      (-(3 / 2 * r1), 3 / 2 * r1, -(3 / 2 * r1), 3 / 2 * r1) :=
  ⟨rfl, rfl, rfl, rfl, rfl, rfl, rfl⟩

/-- Claim C6 witness: the amended claim evaluated at a violating triple of
rationals. -/
theorem claim_C6_witness :
    (ACMotorAnimation.construct (α := ℚ) 2 5 7).stator_radius = 2 ∧
    (ACMotorAnimation.construct (α := ℚ) 2 5 7).axis_limits =
      (-(3 / 2 * 2), 3 / 2 * 2, -(3 / 2 * 2), 3 / 2 * 2) := by
  have h := claim_C6 (α := ℚ) 2 5 7
  exact ⟨h.2.1, h.2.2.2.2.2.2⟩

/-! Claim C7: reference-mark geometry. -/

/-- Claim C7: after every update with angle θ the shaft reference mark
runs from the origin to `(shaft_radius·cos θ, shaft_radius·sin θ)`.  The
hypothesis states the renderer either is fresh (first update creates the
mark) or already has a mark from an earlier update, which covers every
reachable state. -/
theorem claim_C7 {α : Type} [Field α] (cosf sinf : α → α) (piv : α)
    (st : ACMotorAnimation α) (theta : α) (omega torque : Option α)
    (h : st.flagInit = true ∨ st.ref_mark.isSome = true) :
    (ACMotorAnimation.update cosf sinf piv st theta omega torque).ref_mark =
      some { xdata := [0, st.shaft_radius * cosf theta],
             ydata := [0, st.shaft_radius * sinf theta] } := by
  cases hf : st.flagInit with
  | true =>
    simp [ACMotorAnimation.update, ACMotorAnimation.drawStator,
      ACMotorAnimation.drawRotor, ACMotorAnimation.drawShaft, hf]
  | false =>
    have hsome : st.ref_mark.isSome = true := by
      rcases h with h | h
      · rw [hf] at h
        exact absurd h (by simp)
      · exact h
    obtain ⟨mk, hmk⟩ := Option.isSome_iff_exists.mp hsome
    simp [ACMotorAnimation.update, ACMotorAnimation.drawStator,
      ACMotorAnimation.drawRotor, ACMotorAnimation.drawShaft, hf, hmk]

/-- Claim C7 witness (Scenario B): radii `(1, 0.6, 0.15)` over `ℝ`;
`update(theta = 0)` puts the mark at `[(0,0),(0.15,0)]` and a following
`update(theta = π/2)` moves it to `[(0,0),(0,0.15)]`. -/
theorem claim_C7_witness :
    (ACMotorAnimation.update Real.cos Real.sin Real.pi
        (ACMotorAnimation.construct (α := ℝ) 1 (6 / 10) (15 / 100)) 0 none
        none).ref_mark = some { xdata := [0, 15 / 100], ydata := [0, 0] } ∧
    (ACMotorAnimation.update Real.cos Real.sin Real.pi
        (ACMotorAnimation.update Real.cos Real.sin Real.pi
          (ACMotorAnimation.construct (α := ℝ) 1 (6 / 10) (15 / 100)) 0 none none)
        (Real.pi / 2) none none).ref_mark =
      some { xdata := [0, 0], ydata := [0, 15 / 100] } := by
  have h1 := claim_C7 Real.cos Real.sin Real.pi
    (ACMotorAnimation.construct (α := ℝ) 1 (6 / 10) (15 / 100)) 0 none none
    (Or.inl rfl)
  have hA : (ACMotorAnimation.construct (α := ℝ) 1 (6 / 10) (15 / 100)).shaft_radius
      = 15 / 100 := rfl
  rw [hA] at h1
  have h1' : (ACMotorAnimation.update Real.cos Real.sin Real.pi
      (ACMotorAnimation.construct (α := ℝ) 1 (6 / 10) (15 / 100)) 0 none
      none).ref_mark = some { xdata := [0, 15 / 100], ydata := [0, 0] } := by
    rw [h1]
    simp
  have h2 := claim_C7 Real.cos Real.sin Real.pi
    (ACMotorAnimation.update Real.cos Real.sin Real.pi
      (ACMotorAnimation.construct (α := ℝ) 1 (6 / 10) (15 / 100)) 0 none none)
    (Real.pi / 2) none none
    (Or.inr (by rw [h1']; rfl))
  have hB : (ACMotorAnimation.update Real.cos Real.sin Real.pi
      (ACMotorAnimation.construct (α := ℝ) 1 (6 / 10) (15 / 100)) 0 none
      none).shaft_radius = 15 / 100 := rfl
  rw [hB] at h2
  refine ⟨h1', ?_⟩
  rw [h2]
  simp [Real.cos_pi_div_two, Real.sin_pi_div_two]
